import Mathlib

/-!
Verification of the rtftui input-editing core (src/bin/main.rs) and the
documentation-sync routine (src/lib.rs), shallowly embedded in Lean.

The buffer `input: String` of the Rust `App` struct is modelled as the
list of its Unicode scalar values (`List Char`), matching the data model
(an ordered sequence of Unicode scalar values).  The byte-level view of
the Rust `String` is recovered by the explicit UTF-8 encoder `utf8Bytes`
below, and the correspondence between the char-level operations and the
byte-level splices performed by the source is proved
(`utf8Bytes_insertAt`), so nothing Unicode-relevant is abstracted away.
-/

namespace Rtftui

/-- The `enum InputMode \x7b Normal, Searching \x7d` from src/bin/main.rs. -/
inductive InputMode where
  | Normal
  | Searching
deriving DecidableEq, Repr

/-- The `App` struct from src/bin/main.rs: current input, cursor position in
character units, and current input mode. -/
structure App where
  input : List Char
  character_index : Nat
  input_mode : InputMode
deriving DecidableEq, Repr

/-- Source `App::new`: empty buffer, cursor 0, Searching mode. -/
def App.new : App :=
  { input := [], character_index := 0, input_mode := InputMode.Searching }

/-- Source `App::clamp_cursor`: `new_cursor_pos.clamp(0, self.input.chars().count())`.
On `usize` (here `Nat`) the lower bound 0 is vacuous, so this is `min`. -/
def App.clamp_cursor (a : App) (new_cursor_pos : Nat) : Nat :=
  min new_cursor_pos a.input.length

/-- Source `App::move_cursor_left`: saturating decrement then clamp.
`usize::saturating_sub` is `Nat` subtraction. -/
def App.move_cursor_left (a : App) : App :=
  { a with character_index := a.clamp_cursor (a.character_index - 1) }

/-- Source `App::move_cursor_right`: saturating increment then clamp.  On `Nat`
the increment never saturates; `usize::saturating_add 1` differs from it
only at `usize::MAX`, which the clamp to the buffer length masks anyway. -/
def App.move_cursor_right (a : App) : App :=
  { a with character_index := a.clamp_cursor (a.character_index + 1) }

/-- Rust `char::len_utf8`: the number of bytes of the UTF-8 encoding. -/
def utf8Size (c : Char) : Nat :=
  if c.toNat < 0x80 then 1
  else if c.toNat < 0x800 then 2
  else if c.toNat < 0x10000 then 3
  else 4

/-- The UTF-8 encoding of one scalar value, as its list of bytes. -/
def utf8EncodeChar (c : Char) : List Nat :=
  let v := c.toNat
  if v < 0x80 then [v]
  else if v < 0x800 then
    [0xC0 + v / 0x40, 0x80 + v % 0x40]
  else if v < 0x10000 then
    [0xE0 + v / 0x1000, 0x80 + v / 0x40 % 0x40, 0x80 + v % 0x40]
  else
    [0xF0 + v / 0x40000, 0x80 + v / 0x1000 % 0x40, 0x80 + v / 0x40 % 0x40,
     0x80 + v % 0x40]

/-- The byte content of the Rust `String` holding these scalar values. -/
def utf8Bytes (s : List Char) : List Nat :=
  (s.map utf8EncodeChar).flatten

/-- Source `App::byte_index`: the byte offset of the `character_index`-th character
boundary, `self.input.char_indices().map(|(i,_)| i).nth(ci).unwrap_or(len)`.
Past the last character it is the total byte length (the `unwrap_or`). -/
def byteIndexAux : List Char → Nat → Nat
  | [], _ => 0
  | _ :: _, 0 => 0
  | c :: cs, n + 1 => utf8Size c + byteIndexAux cs n

def App.byte_index (a : App) : Nat :=
  byteIndexAux a.input a.character_index

/-- Insertion of a scalar value at character position `ci` (capped at the
end of the list).  `App::enter_char` performs this as a byte splice at
`byte_index`; `utf8Bytes_insertAt` below proves the two views agree. -/
def insertAt (s : List Char) (ci : Nat) (c : Char) : List Char :=
  s.take ci ++ c :: s.drop ci

/-- Source `App::enter_char`: insert at the cursor, then `move_cursor_right`. -/
def App.enter_char (a : App) (new_char : Char) : App :=
  ({ a with input := insertAt a.input a.character_index new_char
   } : App).move_cursor_right

/-- Source `App::delete_char`: if the cursor is not leftmost, rebuild the buffer
from the characters before `character_index - 1` chained with those from
`character_index` on, then `move_cursor_left`; otherwise do nothing. -/
def App.delete_char (a : App) : App :=
  if a.character_index ≠ 0 then
    let before_char_to_delete := a.input.take (a.character_index - 1)
    let after_char_to_delete := a.input.drop a.character_index
    ({ a with input := before_char_to_delete ++ after_char_to_delete
     } : App).move_cursor_left
  else a

/-- Source `App::reset_cursor`. -/
def App.reset_cursor (a : App) : App :=
  { a with character_index := 0 }

/-- Source `App::submit_message`: clear the input, reset the cursor. -/
def App.submit_message (a : App) : App :=
  ({ a with input := [] } : App).reset_cursor

/-- The key codes distinguished by the dispatcher.  Every other
`crossterm::event::KeyCode` falls into the source's `_ => {}` arms and is
modelled by `Other`. -/
inductive KeyCode where
  | Char (c : Char)
  | Enter
  | Backspace
  | Left
  | Right
  | Esc
  | Other
deriving DecidableEq, Repr

/-- The kind field of `crossterm::event::KeyEvent`. -/
inductive KeyEventKind where
  | Press
  | Release
  | Repeat
deriving DecidableEq, Repr

/-- A key event: code plus kind, the two fields `App::run` inspects. -/
structure KeyEvent where
  code : KeyCode
  kind : KeyEventKind
deriving DecidableEq, Repr

/-- Outcome of one iteration of the match in `App::run` on a key event:
either the loop continues with the mutated state, or the function returns
`Ok(())` (process exit code 0). -/
inductive StepResult where
  | Continue (a : App)
  | Quit
deriving DecidableEq, Repr

/-- One dispatch of a key event against the current mode: the body of
`if let Event::Key(key) = ... { match self.input_mode { ... } }` in
`App::run` (src/bin/main.rs lines 129-151). -/
def App.step (a : App) (key : KeyEvent) : StepResult :=
  match a.input_mode with
  | InputMode.Normal =>
    match key.code with
    | KeyCode.Char c =>
      if c = 'i' ∨ c = '/' then
        StepResult.Continue { a with input_mode := InputMode.Searching }
      else if c = 'q' then
        StepResult.Quit
      else
        StepResult.Continue a
    | _ => StepResult.Continue a
  | InputMode.Searching =>
    if key.kind = KeyEventKind.Press then
      match key.code with
      | KeyCode.Enter => StepResult.Continue a.submit_message
      | KeyCode.Char to_insert => StepResult.Continue (a.enter_char to_insert)
      | KeyCode.Backspace => StepResult.Continue a.delete_char
      | KeyCode.Left => StepResult.Continue a.move_cursor_left
      | KeyCode.Right => StepResult.Continue a.move_cursor_right
      | KeyCode.Esc =>
        StepResult.Continue { a with input_mode := InputMode.Normal }
      | _ => StepResult.Continue a
    else
      StepResult.Continue a

/-- The state after dispatching one event (unchanged if the loop quit). -/
def App.stepApp (a : App) (key : KeyEvent) : App :=
  match a.step key with
  | StepResult.Continue a' => a'
  | StepResult.Quit => a

/-- The state reached by running the dispatcher over a finite sequence of
key events. -/
def applyEvents (a : App) : List KeyEvent → App
  | [] => a
  | k :: ks => applyEvents (a.stepApp k) ks

/-- The cursor invariant: `0 ≤ character_index ≤ character_count(input)`.
The lower bound is vacuous on `Nat`. -/
def cursorInv (a : App) : Prop :=
  a.character_index ≤ a.input.length

instance (a : App) : Decidable (cursorInv a) := by
  unfold cursorInv; infer_instance

/-- Iterated `move_cursor_right`, for the cursor-walk property. -/
def iterRight (a : App) : Nat → App
  | 0 => a
  | n + 1 => (iterRight a n).move_cursor_right

/-- A key press event. -/
def press (code : KeyCode) : KeyEvent :=
  { code := code, kind := KeyEventKind.Press }

/-- The five scalar values of the buffer `"héllo"`. -/
def hello : List Char := ['h', 'é', 'l', 'l', 'o']

/-- The (x, y) origin of the input area `Rect` (`u16` fields in ratatui). -/
structure AreaPos where
  x : Nat
  y : Nat
deriving DecidableEq, Repr

/-- The cursor-placement part of `App::draw` (src/bin/main.rs lines
196-209): in Normal mode the cursor stays hidden (`none`); in Searching
mode `frame.set_cursor_position` receives
`(input_area.x + self.character_index as u16 + 1, input_area.y + 1)`.
The `as u16` cast truncates `character_index` mod 2^16, and the `u16`
additions are modelled wrapping mod 2^16. -/
def cursorPlacement (a : App) (input_area : AreaPos) : Option (Nat × Nat) :=
  match a.input_mode with
  | InputMode.Normal => none
  | InputMode.Searching =>
    some ((input_area.x + a.character_index % 65536 + 1) % 65536,
          (input_area.y + 1) % 65536)

/-- The fault classes `sync_repo` (src/lib.rs) can propagate with `?`. -/
inductive SyncError where
  | network
  | badArchive
  | filesystem
deriving DecidableEq, Repr

/-- The outcomes of the external calls `sync_repo` makes, passed in
explicitly so the routine is a pure function of them. -/
structure SyncEnv where
  /-- Result of `BaseDirs::new()` composed with `.data_local_dir()`: the local data
  directory when a valid home directory exists, `none` otherwise. -/
  data_local_dir : Option (List Char)
  /-- Result of `reqwest::get(DEVDOCS_GIT).await?.bytes().await?`. -/
  fetch : Except SyncError (List Nat)
  /-- Result of `zip::ZipArchive::new` on the fetched bytes. -/
  zip_new : List Nat → Except SyncError Unit
  /-- Result of `std::fs::create_dir_all` on the given path. -/
  create_dir_all : List Char → Except SyncError Unit
  /-- Result of `archive.extract` to the given path. -/
  extract_to : List Char → Except SyncError Unit

/-- The value `sync_repo` ends with: `Ok(())`, `Err(e)`, or an abort with
no result value at all (the `.unwrap()` panicking). -/
inductive SyncOutcome where
  | ok
  | fail (e : SyncError)
  | panicked
deriving DecidableEq, Repr

/-- Source `sync_repo` from src/lib.rs: `BaseDirs::new().unwrap()` (an abort when
no valid home directory exists), join `"rtftui"` onto the data-local dir,
fetch the archive, open it as a zip, `create_dir_all` the target
directory, extract into it; every `?` propagates its error as `Err`. -/
def sync_repo (env : SyncEnv) : SyncOutcome :=
  match env.data_local_dir with
  | none => SyncOutcome.panicked
  | some dirs =>
    let local_storage := dirs ++ ('/' :: ['r', 't', 'f', 't', 'u', 'i'])
    match env.fetch with
    | Except.error e => SyncOutcome.fail e
    | Except.ok source_zip =>
      match env.zip_new source_zip with
      | Except.error e => SyncOutcome.fail e
      | Except.ok _ =>
        match env.create_dir_all local_storage with
        | Except.error e => SyncOutcome.fail e
        | Except.ok _ =>
          match env.extract_to local_storage with
          | Except.error e => SyncOutcome.fail e
          | Except.ok _ => SyncOutcome.ok

/-- An environment with no valid home directory (`BaseDirs::new()` is
`None`); all other collaborators would succeed. -/
def noHomeEnv : SyncEnv :=
  { data_local_dir := none
    fetch := Except.ok []
    zip_new := fun _ => Except.ok ()
    create_dir_all := fun _ => Except.ok ()
    extract_to := fun _ => Except.ok () }

/-- An environment where every external call succeeds. -/
def allOkEnv : SyncEnv :=
  { data_local_dir := some []
    fetch := Except.ok []
    zip_new := fun _ => Except.ok ()
    create_dir_all := fun _ => Except.ok ()
    extract_to := fun _ => Except.ok () }

/-- A Searching-mode state whose cursor index does not fit in `u16`:
65536 characters, cursor at the end. -/
def bigApp : App :=
  { input := List.replicate 65536 'a'
    character_index := 65536
    input_mode := InputMode.Searching }

/-! ## Supporting lemmas -/

theorem clamp_cursor_le (a : App) (p : Nat) :
    a.clamp_cursor p ≤ a.input.length :=
  Nat.min_le_right p a.input.length

theorem cursorInv_move_cursor_left (a : App) : cursorInv a.move_cursor_left :=
  clamp_cursor_le a (a.character_index - 1)

theorem cursorInv_move_cursor_right (a : App) : cursorInv a.move_cursor_right :=
  clamp_cursor_le a (a.character_index + 1)

theorem cursorInv_enter_char (a : App) (c : Char) :
    cursorInv (a.enter_char c) :=
  cursorInv_move_cursor_right _

theorem cursorInv_delete_char (a : App) (h : cursorInv a) :
    cursorInv a.delete_char := by
  unfold App.delete_char
  split
  · exact cursorInv_move_cursor_left _
  · exact h

theorem cursorInv_submit_message (a : App) : cursorInv a.submit_message :=
  Nat.le_refl 0

theorem stepApp_cursorInv (a : App) (k : KeyEvent) (h : cursorInv a) :
    cursorInv (a.stepApp k) := by
  unfold App.stepApp App.step
  cases hm : a.input_mode with
  | Normal =>
    cases k.code <;> simp only <;> (try split_ifs) <;> exact h
  | Searching =>
    split_ifs with hk
    · cases k.code <;> simp only
      · exact cursorInv_enter_char a _
      · exact cursorInv_submit_message a
      · exact cursorInv_delete_char a h
      · exact cursorInv_move_cursor_left a
      · exact cursorInv_move_cursor_right a
      · exact h
      · exact h
    · exact h

theorem applyEvents_cursorInv (a : App) (es : List KeyEvent)
    (h : cursorInv a) : cursorInv (applyEvents a es) := by
  induction es generalizing a with
  | nil => exact h
  | cons k ks ih => exact ih _ (stepApp_cursorInv a k h)

/-- The length of the UTF-8 encoding of a scalar value is `len_utf8`. -/
theorem utf8EncodeChar_length (c : Char) :
    (utf8EncodeChar c).length = utf8Size c := by
  simp only [utf8EncodeChar, utf8Size]
  split_ifs <;> rfl

/-- Inserting a character at character position `ci` is exactly the byte
splice at the byte offset `byte_index` computes — the operation
`App::enter_char` performs on the Rust `String`.  This justifies the
char-level model of `enter_char`. -/
theorem utf8Bytes_insertAt (s : List Char) (ci : Nat) (c : Char) :
    utf8Bytes (insertAt s ci c) =
      (utf8Bytes s).take (byteIndexAux s ci) ++ utf8EncodeChar c ++
        (utf8Bytes s).drop (byteIndexAux s ci) := by
  induction s generalizing ci with
  | nil => simp [insertAt, utf8Bytes, byteIndexAux]
  | cons d ds ih =>
    cases ci with
    | zero => simp [insertAt, utf8Bytes, byteIndexAux]
    | succ n =>
      have hlen : (utf8EncodeChar d).length = utf8Size d :=
        utf8EncodeChar_length d
      have hs : insertAt (d :: ds) (n + 1) c = d :: insertAt ds n c := by
        simp [insertAt]
      rw [hs]
      show utf8EncodeChar d ++ utf8Bytes (insertAt ds n c) = _
      rw [ih n]
      have hb : byteIndexAux (d :: ds) (n + 1) =
          (utf8EncodeChar d).length + byteIndexAux ds n := by
        rw [hlen]; rfl
      have hbytes : utf8Bytes (d :: ds) = utf8EncodeChar d ++ utf8Bytes ds := by
        simp [utf8Bytes]
      rw [hb, hbytes, List.take_append, List.drop_append]
      simp

/-! ## Claims -/

/-- C1: every state reachable from the initial state (empty buffer,
cursor 0, Searching mode) under any sequence of key events satisfies
`0 ≤ character_index ≤ character_count(input)`, and every single dispatch
preserves that bound. -/
theorem reachable_cursor_invariant :
    (∀ es : List KeyEvent, cursorInv (applyEvents App.new es)) ∧
    (∀ (a : App) (k : KeyEvent), cursorInv a → cursorInv (a.stepApp k)) :=
  ⟨fun es => applyEvents_cursorInv App.new es (Nat.le_refl 0),
   stepApp_cursorInv⟩

theorem reachable_cursor_invariant_witness :
    cursorInv (applyEvents App.new
      [press (KeyCode.Char 'x'), press KeyCode.Left]) ∧
    cursorInv (App.new.stepApp (press KeyCode.Right)) :=
  ⟨reachable_cursor_invariant.1 [press (KeyCode.Char 'x'), press KeyCode.Left],
   reachable_cursor_invariant.2 App.new (press KeyCode.Right) (Nat.le_refl 0)⟩

/-- C2: from any state satisfying the cursor invariant, `enter_char c`
followed by `delete_char` restores the buffer and the cursor (and the
whole state) to their pre-insert values. -/
theorem enter_then_delete_roundtrip (a : App) (c : Char)
    (h : cursorInv a) : (a.enter_char c).delete_char = a := by
  obtain ⟨inp, ci, m⟩ := a
  have hci : ci ≤ inp.length := h
  have htake : (inp.take ci).length = ci := by
    simpa using hci
  have h1 : ((⟨inp, ci, m⟩ : App).enter_char c) =
      ⟨inp.take ci ++ c :: inp.drop ci, ci + 1, m⟩ := by
    unfold App.enter_char App.move_cursor_right App.clamp_cursor insertAt
    have hlen : (inp.take ci ++ c :: inp.drop ci).length = inp.length + 1 := by
      simp [htake]
      omega
    simp [hlen]
    omega
  rw [h1]
  unfold App.delete_char
  dsimp only
  split
  · unfold App.move_cursor_left App.clamp_cursor
    simp only
    have h2 : (inp.take ci ++ c :: inp.drop ci).take ((ci + 1) - 1) =
        inp.take ci :=
      List.take_left' htake
    have h3 : (inp.take ci ++ c :: inp.drop ci).drop (ci + 1) = inp.drop ci := by
      have : inp.take ci ++ c :: inp.drop ci =
          (inp.take ci ++ [c]) ++ inp.drop ci := by simp
      rw [this]
      exact List.drop_left' (by simp [htake])
    rw [h2, h3, List.take_append_drop]
    simp [Nat.min_eq_left hci]
  · omega

theorem enter_then_delete_roundtrip_witness :
    ((⟨['a', 'b'], 1, InputMode.Searching⟩ : App).enter_char 'z').delete_char =
      ⟨['a', 'b'], 1, InputMode.Searching⟩ :=
  enter_then_delete_roundtrip ⟨['a', 'b'], 1, InputMode.Searching⟩ 'z'
    (by decide)

/-- C6: `move_cursor_left` at cursor 0 and `delete_char` at cursor 0 are
no-ops, and `move_cursor_right` at cursor = character count is a no-op. -/
theorem boundary_noops (a : App) :
    (a.character_index = 0 → a.move_cursor_left = a ∧ a.delete_char = a) ∧
    (a.character_index = a.input.length → a.move_cursor_right = a) := by
  obtain ⟨inp, ci, m⟩ := a
  constructor
  · intro h0
    simp only at h0
    subst h0
    constructor
    · unfold App.move_cursor_left App.clamp_cursor
      simp
    · unfold App.delete_char
      simp
  · intro hlen
    simp only at hlen
    subst hlen
    unfold App.move_cursor_right App.clamp_cursor
    simp

theorem boundary_noops_witness :
    ((⟨['a'], 0, InputMode.Searching⟩ : App).move_cursor_left =
        ⟨['a'], 0, InputMode.Searching⟩ ∧
      (⟨['a'], 0, InputMode.Searching⟩ : App).delete_char =
        ⟨['a'], 0, InputMode.Searching⟩) ∧
    (⟨['a'], 1, InputMode.Searching⟩ : App).move_cursor_right =
      ⟨['a'], 1, InputMode.Searching⟩ :=
  ⟨(boundary_noops ⟨['a'], 0, InputMode.Searching⟩).1 rfl,
   (boundary_noops ⟨['a'], 1, InputMode.Searching⟩).2 rfl⟩

/-- C3: from buffer `"héllo"` and cursor 0, the cursor positions after
1, 2, ... 6 applications of `move_cursor_right` are 1, 2, 3, 4, 5, 5
(exactly the five positions 1..5, then stuck at 5); `delete_char` at
cursor 2 removes exactly `é`, leaving `"hllo"` with cursor 1, and at the
byte level the result is the bytes of `"héllo"` with precisely the two
bytes of `é` (offsets 1 and 2) spliced out — no adjacent byte touched. -/
theorem hello_unicode_walk_and_delete :
    ((List.range 6).map
        (fun n => (iterRight ⟨hello, 0, InputMode.Searching⟩ (n + 1)
          ).character_index) = [1, 2, 3, 4, 5, 5]) ∧
    ((⟨hello, 2, InputMode.Searching⟩ : App).delete_char.input =
        ['h', 'l', 'l', 'o'] ∧
      (⟨hello, 2, InputMode.Searching⟩ : App).delete_char.character_index =
        1) ∧
    (utf8EncodeChar 'é' = [0xC3, 0xA9] ∧
      utf8Bytes hello = [0x68, 0xC3, 0xA9, 0x6C, 0x6C, 0x6F] ∧
      utf8Bytes (⟨hello, 2, InputMode.Searching⟩ : App).delete_char.input =
        (utf8Bytes hello).take 1 ++ (utf8Bytes hello).drop 3 ∧
      utf8Bytes (⟨hello, 2, InputMode.Searching⟩ : App).delete_char.input =
        [0x68, 0x6C, 0x6C, 0x6F]) := by
  refine ⟨by decide, ⟨by decide, by decide⟩, ?_, ?_, ?_, ?_⟩ <;> decide

/-- C4: with the cursor invariant, pressing `q` in Searching mode inserts
the literal character `q` at the cursor and advances the cursor — the
loop continues; a `q` key event in Normal (Navigation) mode, of any kind,
makes `run` return `Ok(())` (process exit code 0, modelled `Quit`). -/
theorem q_mode_gating (a : App) (h : cursorInv a) :
    (a.input_mode = InputMode.Searching →
      a.step (press (KeyCode.Char 'q')) =
        StepResult.Continue (a.enter_char 'q') ∧
      (a.enter_char 'q').input =
        a.input.take a.character_index ++ 'q' :: a.input.drop
          a.character_index ∧
      (a.enter_char 'q').character_index = a.character_index + 1) ∧
    (∀ kind : KeyEventKind, a.input_mode = InputMode.Normal →
      a.step ⟨KeyCode.Char 'q', kind⟩ = StepResult.Quit) := by
  obtain ⟨inp, ci, m⟩ := a
  have hci : ci ≤ inp.length := h
  constructor
  · intro hm
    simp only at hm
    subst hm
    refine ⟨rfl, rfl, ?_⟩
    unfold App.enter_char App.move_cursor_right App.clamp_cursor insertAt
    have htake : (inp.take ci).length = ci := by simpa using hci
    have hlen : (inp.take ci ++ 'q' :: inp.drop ci).length =
        inp.length + 1 := by
      simp [htake]; omega
    simp
    omega
  · intro kind hm
    simp only at hm
    subst hm
    rfl

theorem q_mode_gating_witness :
    (App.new.step (press (KeyCode.Char 'q')) =
        StepResult.Continue (App.new.enter_char 'q') ∧
      (App.new.enter_char 'q').character_index = 0 + 1) ∧
    (⟨[], 0, InputMode.Normal⟩ : App).step
        ⟨KeyCode.Char 'q', KeyEventKind.Release⟩ = StepResult.Quit :=
  ⟨⟨((q_mode_gating App.new (Nat.le_refl 0)).1 rfl).1,
    ((q_mode_gating App.new (Nat.le_refl 0)).1 rfl).2.2⟩,
   (q_mode_gating ⟨[], 0, InputMode.Normal⟩ (Nat.le_refl 0)).2
     KeyEventKind.Release rfl⟩

/-- C5: the scenario — from the initial state, pressing `a`, `b`, `c`
gives buffer `"abc"` and cursor 3; two more `Left` presses give cursor 1;
a further `Backspace` press gives buffer `"bc"` and cursor 0; a further
`Enter` press gives buffer `""` and cursor 0. -/
theorem scenario_abc :
    (let a3 := applyEvents App.new
        [press (KeyCode.Char 'a'), press (KeyCode.Char 'b'),
         press (KeyCode.Char 'c')];
      a3.input = ['a', 'b', 'c'] ∧ a3.character_index = 3) ∧
    (let a5 := applyEvents App.new
        [press (KeyCode.Char 'a'), press (KeyCode.Char 'b'),
         press (KeyCode.Char 'c'), press KeyCode.Left, press KeyCode.Left];
      a5.character_index = 1) ∧
    (let a6 := applyEvents App.new
        [press (KeyCode.Char 'a'), press (KeyCode.Char 'b'),
         press (KeyCode.Char 'c'), press KeyCode.Left, press KeyCode.Left,
         press KeyCode.Backspace];
      a6.input = ['b', 'c'] ∧ a6.character_index = 0) ∧
    (let a7 := applyEvents App.new
        [press (KeyCode.Char 'a'), press (KeyCode.Char 'b'),
         press (KeyCode.Char 'c'), press KeyCode.Left, press KeyCode.Left,
         press KeyCode.Backspace, press KeyCode.Enter];
      a7.input = [] ∧ a7.character_index = 0) := by
  decide

/-- C7: in Searching mode, a key event whose kind is not `Press` is
dispatched to the identity: the state (buffer, cursor and mode) is
returned unchanged and the loop continues, whatever the key code. -/
theorem searching_ignores_nonpress (a : App) (k : KeyEvent)
    (hm : a.input_mode = InputMode.Searching)
    (hk : k.kind ≠ KeyEventKind.Press) :
    a.step k = StepResult.Continue a := by
  unfold App.step
  rw [hm]
  simp [hk]

theorem searching_ignores_nonpress_witness :
    App.new.step ⟨KeyCode.Char 'q', KeyEventKind.Release⟩ =
      StepResult.Continue App.new :=
  searching_ignores_nonpress App.new ⟨KeyCode.Char 'q', KeyEventKind.Release⟩
    rfl (by decide)

/-- C10: in Normal (Navigation) mode the dispatcher never inspects the
event kind: `i` and `/` of any kind switch the mode to Searching, and `q`
of any kind quits; the press-only filter exists only in Searching mode. -/
theorem normal_mode_ignores_kind (a : App) (kind : KeyEventKind)
    (hm : a.input_mode = InputMode.Normal) :
    a.step ⟨KeyCode.Char 'i', kind⟩ =
      StepResult.Continue { a with input_mode := InputMode.Searching } ∧
    a.step ⟨KeyCode.Char '/', kind⟩ =
      StepResult.Continue { a with input_mode := InputMode.Searching } ∧
    a.step ⟨KeyCode.Char 'q', kind⟩ = StepResult.Quit := by
  unfold App.step
  rw [hm]
  refine ⟨?_, ?_, ?_⟩ <;> simp

theorem normal_mode_ignores_kind_witness :
    (⟨[], 0, InputMode.Normal⟩ : App).step
        ⟨KeyCode.Char 'i', KeyEventKind.Repeat⟩ =
      StepResult.Continue ⟨[], 0, InputMode.Searching⟩ ∧
    (⟨[], 0, InputMode.Normal⟩ : App).step
        ⟨KeyCode.Char '/', KeyEventKind.Repeat⟩ =
      StepResult.Continue ⟨[], 0, InputMode.Searching⟩ ∧
    (⟨[], 0, InputMode.Normal⟩ : App).step
        ⟨KeyCode.Char 'q', KeyEventKind.Repeat⟩ = StepResult.Quit :=
  normal_mode_ignores_kind ⟨[], 0, InputMode.Normal⟩ KeyEventKind.Repeat rfl

/-- C8 counterexample: `draw` casts `character_index as u16`, so for a
Searching-mode state with 65536 characters and the cursor at the end
(cursor invariant satisfied) the hardware cursor is NOT placed at column
`input_area.x + character_index + 1`: the cast truncates 65536 to 0 and
the column comes out as 1, not 65537. -/
theorem cursor_column_truncated :
    cursorInv bigApp ∧ bigApp.input_mode = InputMode.Searching ∧
    cursorPlacement bigApp ⟨0, 0⟩ ≠
      some (0 + bigApp.character_index + 1, 0 + 1) := by
  refine ⟨?_, rfl, ?_⟩
  · show (65536 : Nat) ≤ (List.replicate 65536 'a').length
    rw [List.length_replicate]
  · show cursorPlacement bigApp ⟨0, 0⟩ ≠ some (0 + 65536 + 1, 0 + 1)
    unfold cursorPlacement
    show some ((0 + 65536 % 65536 + 1) % 65536, (0 + 1) % 65536) ≠ _
    decide

/-- C8 amended: whenever the column value `input_area.x +
character_index + 1` and the row value `input_area.y + 1` fit in `u16`
(are < 65536, so the truncating cast and the `u16` sums are exact), the
renderer places the hardware cursor at exactly that column and row in
Searching mode; in Navigation mode no cursor position is set.  The
placement is the pure function `cursorPlacement` of the state and the
input area. -/
theorem cursor_placement_in_range (a : App) (input_area : AreaPos)
    (hx : input_area.x + a.character_index + 1 < 65536)
    (hy : input_area.y + 1 < 65536) :
    (a.input_mode = InputMode.Searching →
      cursorPlacement a input_area =
        some (input_area.x + a.character_index + 1, input_area.y + 1)) ∧
    (a.input_mode = InputMode.Normal →
      cursorPlacement a input_area = none) := by
  constructor
  · intro hm
    unfold cursorPlacement
    rw [hm]
    have h1 : a.character_index % 65536 = a.character_index :=
      Nat.mod_eq_of_lt (by omega)
    rw [h1, Nat.mod_eq_of_lt hx, Nat.mod_eq_of_lt hy]
  · intro hm
    unfold cursorPlacement
    rw [hm]

theorem cursor_placement_in_range_witness :
    cursorPlacement ⟨['a'], 1, InputMode.Searching⟩ ⟨2, 3⟩ =
      some (2 + 1 + 1, 3 + 1) ∧
    cursorPlacement ⟨['a'], 1, InputMode.Normal⟩ ⟨2, 3⟩ = none :=
  ⟨(cursor_placement_in_range ⟨['a'], 1, InputMode.Searching⟩ ⟨2, 3⟩
      (by decide) (by decide)).1 rfl,
   (cursor_placement_in_range ⟨['a'], 1, InputMode.Normal⟩ ⟨2, 3⟩
      (by decide) (by decide)).2 rfl⟩

/-- C9 counterexample: when `BaseDirs::new()` finds no valid home
directory, the `.unwrap()` in `sync_repo` panics — the call aborts
without producing a success or failure value, a third outcome the claim
rules out. -/
theorem sync_repo_aborts_without_home :
    sync_repo noHomeEnv = SyncOutcome.panicked ∧
    sync_repo noHomeEnv ≠ SyncOutcome.ok ∧
    sync_repo noHomeEnv ≠ SyncOutcome.fail SyncError.network ∧
    sync_repo noHomeEnv ≠ SyncOutcome.fail SyncError.badArchive ∧
    sync_repo noHomeEnv ≠ SyncOutcome.fail SyncError.filesystem := by
  refine ⟨rfl, ?_, ?_, ?_, ?_⟩ <;> decide

/-- C9 amended: provided the base-directories lookup succeeds,
`sync_repo` either returns success or returns a failure propagated from
the network fetch, the archive parse, or the filesystem; and on success
both the creation of the `rtftui` data directory and the extraction into
it succeeded.  (When the lookup fails it panics instead — see the
counterexample.) -/
theorem sync_repo_total_given_dirs (env : SyncEnv) (base : List Char)
    (hbase : env.data_local_dir = some base) :
    (sync_repo env = SyncOutcome.ok ∨
      ∃ e : SyncError, sync_repo env = SyncOutcome.fail e) ∧
    (sync_repo env = SyncOutcome.ok →
      env.create_dir_all (base ++ ('/' :: ['r', 't', 'f', 't', 'u', 'i'])) =
          Except.ok () ∧
      env.extract_to (base ++ ('/' :: ['r', 't', 'f', 't', 'u', 'i'])) =
          Except.ok ()) := by
  obtain ⟨dls, fetch, zipn, cda, ext⟩ := env
  dsimp only at hbase ⊢
  subst hbase
  unfold sync_repo
  dsimp only
  cases fetch with
  | error e => exact ⟨Or.inr ⟨e, rfl⟩, fun h => nomatch h⟩
  | ok source_zip =>
    dsimp only
    cases hz : zipn source_zip with
    | error e => exact ⟨Or.inr ⟨e, rfl⟩, fun h => nomatch h⟩
    | ok u =>
      dsimp only
      cases hc : cda (base ++ ('/' :: ['r', 't', 'f', 't', 'u', 'i'])) with
      | error e => exact ⟨Or.inr ⟨e, rfl⟩, fun h => nomatch h⟩
      | ok u2 =>
        dsimp only
        cases hx : ext (base ++ ('/' :: ['r', 't', 'f', 't', 'u', 'i'])) with
        | error e => exact ⟨Or.inr ⟨e, rfl⟩, fun h => nomatch h⟩
        | ok u3 =>
          cases u2
          cases u3
          exact ⟨Or.inl rfl, fun _ => ⟨rfl, rfl⟩⟩

theorem sync_repo_total_given_dirs_witness :
    (sync_repo allOkEnv = SyncOutcome.ok ∨
      ∃ e : SyncError, sync_repo allOkEnv = SyncOutcome.fail e) ∧
    (sync_repo allOkEnv = SyncOutcome.ok →
      allOkEnv.create_dir_all ([] ++ ('/' :: ['r', 't', 'f', 't', 'u', 'i'])) =
          Except.ok () ∧
      allOkEnv.extract_to ([] ++ ('/' :: ['r', 't', 'f', 't', 'u', 'i'])) =
          Except.ok ()) :=
  sync_repo_total_given_dirs allOkEnv [] rfl

end Rtftui
